import Mathlib

/-
Verification of the tour-quote repository's quote pricing/aggregation model,
quote assembly operations, cascading delete protocol and CSV export.

Shallow embedding conventions:
  - JS numbers carrying money or quantities are modelled as rationals.
  - Pax head counts are naturals.
  - Firestore document ids are strings; locally generated uuids
    (crypto.randomUUID for days and quote items) are modelled as a fresh
    natural-number counter threaded through the UI state.
  - JS Math.round is round-half-up: floor of x plus one half.
-/

set_option maxRecDepth 20000

namespace TourQuote

/-- JS Math.round: rounds to the nearest integer, halves toward positive infinity. -/
def jsRound (x : ℚ) : ℤ := ⌊x + 1 / 2⌋

/-- PricingType from src/types.ts: "PerPerson" or "PerUnit". -/
inductive PricingType where
  | PerPerson
  | PerUnit
deriving DecidableEq, Repr

/-- Product from src/types.ts, with references modelled as document-id strings. -/
structure Product where
  id : String
  ProductName : String
  CityRef : String
  CategoryRef : String
  PricingType : PricingType
  Price_Adult : Option ℚ
  Price_Child : Option ℚ
  Price_Infant : Option ℚ
  Price_Unit : Option ℚ
  CategoryName : Option String
deriving DecidableEq, Repr

/-- Party composition from QuoteInfo.pax in src/types.ts. -/
structure Pax where
  adults : ℕ
  children : ℕ
  infants : ℕ
deriving DecidableEq, Repr

/-- QuoteInfo from src/types.ts. -/
structure QuoteInfo where
  customerName : String
  countryId : String
  cityId : String
  pax : Pax
deriving DecidableEq, Repr

/-- QuoteItem from src/types.ts; the uuid is a counter value. -/
structure QuoteItem where
  id : ℕ
  product : Product
  quantity : ℚ
  appliedPrice : ℚ
  total : ℚ
deriving DecidableEq, Repr

/-- QuoteDay from src/types.ts. -/
structure QuoteDay where
  id : ℕ
  items : List QuoteItem
  dayTotal : ℚ
deriving DecidableEq, Repr

/-- Quote from src/types.ts. -/
structure Quote where
  info : QuoteInfo
  days : List QuoteDay
  grandTotal : ℚ
deriving DecidableEq, Repr

/-- recalculateQuote from src/pages/QuotePage.tsx lines 42 to 55: every item's
total becomes quantity times appliedPrice, each dayTotal the sum of its items'
new totals, and the grand total the sum of the day totals. -/
def recalculateQuote (currentDays : List QuoteDay) : List QuoteDay × ℚ :=
  let newDays := currentDays.map (fun day =>
    let newItems := day.items.map (fun item =>
      { item with total := item.quantity * item.appliedPrice })
    { day with items := newItems, dayTotal := (newItems.map QuoteItem.total).sum })
  (newDays, (newDays.map QuoteDay.dayTotal).sum)

/-- The initialQuantity and initialAppliedPrice computation at the head of
addProductToDay, src/pages/QuotePage.tsx lines 135 to 150. -/
def initialValues (pax : Pax) (product : Product) : ℚ × ℚ :=
  match product.PricingType with
  | .PerPerson =>
      let totalPax := pax.adults + pax.children + pax.infants
      let totalPrice : ℚ :=
        (pax.adults : ℚ) * product.Price_Adult.getD 0 +
        (pax.children : ℚ) * product.Price_Child.getD 0 +
        (pax.infants : ℚ) * product.Price_Infant.getD 0
      ((if 0 < totalPax then (totalPax : ℚ) else 1),
       (if 0 < totalPax then (jsRound (totalPrice / (totalPax : ℚ)) : ℚ) else 0))
  | .PerUnit => (1, product.Price_Unit.getD 0)

/-- The local component state of QuotePage: quoteInfo, days, grandTotal, plus
the fresh-uuid counter that models crypto.randomUUID. -/
structure QState where
  info : QuoteInfo
  days : List QuoteDay
  grandTotal : ℚ
  nextId : ℕ
deriving DecidableEq, Repr

/-- addDay from src/pages/QuotePage.tsx line 73: appends an empty day and does
not recompute totals. -/
def addDay (s : QState) : QState :=
  { s with days := s.days ++ [{ id := s.nextId, items := [], dayTotal := 0 }],
           nextId := s.nextId + 1 }

/-- removeDay from src/pages/QuotePage.tsx lines 75 to 82, combined with the
remove-day button being disabled at days.length less than or equal to 1
(line 273), which is what rejects removing the last day. -/
def removeDay (s : QState) (dayId : ℕ) : QState :=
  if s.days.length ≤ 1 then s
  else
    let r := recalculateQuote (s.days.filter (fun d => d.id ≠ dayId))
    { s with days := r.1, grandTotal := r.2 }

/-- addProductToDay from src/pages/QuotePage.tsx lines 135 to 174: build the
new item with derived initial quantity and applied price and total 0, append it
to the active day, then recalculate. -/
def addProductToDay (s : QState) (dayId : ℕ) (product : Product) : QState :=
  let v := initialValues s.info.pax product
  let newQuoteItem : QuoteItem :=
    { id := s.nextId, product := product, quantity := v.1,
      appliedPrice := v.2, total := 0 }
  let intermediateDays := s.days.map (fun d =>
    if d.id = dayId then { d with items := d.items ++ [newQuoteItem] } else d)
  let r := recalculateQuote intermediateDays
  { s with days := r.1, grandTotal := r.2, nextId := s.nextId + 1 }

/-- The two editable fields of updateQuoteItem in src/pages/QuotePage.tsx. -/
inductive ItemField where
  | quantity
  | appliedPrice
deriving DecidableEq, Repr

/-- updateQuoteItem from src/pages/QuotePage.tsx lines 176 to 194. -/
def updateQuoteItem (s : QState) (dayId itemId : ℕ) (field : ItemField) (value : ℚ) :
    QState :=
  let intermediateDays := s.days.map (fun day =>
    if day.id = dayId then
      { day with items := day.items.map (fun item =>
          if item.id = itemId then
            match field with
            | .quantity => { item with quantity := value }
            | .appliedPrice => { item with appliedPrice := value }
          else item) }
    else day)
  let r := recalculateQuote intermediateDays
  { s with days := r.1, grandTotal := r.2 }

/-- removeQuoteItem from src/pages/QuotePage.tsx lines 196 to 208. -/
def removeQuoteItem (s : QState) (dayId itemId : ℕ) : QState :=
  let intermediateDays := s.days.map (fun day =>
    if day.id = dayId then
      { day with items := day.items.filter (fun item => item.id ≠ itemId) }
    else day)
  let r := recalculateQuote intermediateDays
  { s with days := r.1, grandTotal := r.2 }

/-- handleInfoChange with field pax, src/pages/QuotePage.tsx lines 57 to 64:
only quoteInfo is updated, days and grandTotal are untouched. -/
def setPax (s : QState) (p : Pax) : QState :=
  { s with info := { s.info with pax := p } }

/-- The quote assembly operations reachable from the QuotePage UI. -/
inductive QOp where
  | addDay
  | removeDay (dayId : ℕ)
  | addItem (dayId : ℕ) (product : Product)
  | updateItem (dayId itemId : ℕ) (field : ItemField) (value : ℚ)
  | removeItem (dayId itemId : ℕ)
  | setPax (p : Pax)

/-- One user-triggered mutation of the QuotePage state. -/
def step (s : QState) : QOp → QState
  | .addDay => addDay s
  | .removeDay d => removeDay s d
  | .addItem d p => addProductToDay s d p
  | .updateItem d i f v => updateQuoteItem s d i f v
  | .removeItem d i => removeQuoteItem s d i
  | .setPax p => setPax s p

/-- The initial QuotePage state, src/pages/QuotePage.tsx lines 20 to 28: one
empty day, zero totals, one adult. -/
def initState : QState :=
  { info := { customerName := "", countryId := "", cityId := "",
              pax := { adults := 1, children := 0, infants := 0 } },
    days := [{ id := 0, items := [], dayTotal := 0 }],
    grandTotal := 0,
    nextId := 1 }

/-- Run a sequence of quote assembly operations from the initial state. -/
def run (ops : List QOp) : QState :=
  ops.foldl step initState

/-- City from src/types.ts, with CountryRef modelled as the country id. -/
structure City where
  id : String
  CityName : String
  CountryRef : String
deriving DecidableEq, Repr

/-- availableCities from src/pages/QuotePage.tsx lines 37 to 40: empty when no
country is selected, otherwise the cities whose CountryRef matches. -/
def availableCities (allCities : List City) (countryId : String) : List City :=
  if countryId = "" then []
  else allCities.filter (fun city => city.CountryRef = countryId)

/-- The cityId invalidation effect, src/pages/QuotePage.tsx lines 66 to 70:
when a country is selected and no available city carries the current cityId,
the cityId is cleared to the empty string. -/
def applyCityInvalidation (allCities : List City) (info : QuoteInfo) : QuoteInfo :=
  if info.countryId ≠ "" ∧
     (availableCities allCities info.countryId).find? (fun c => c.id = info.cityId)
       = none
  then { info with cityId := "" }
  else info

/-- Changing the country on QuoteInfo (handleInfoChange with field countryId,
src/pages/QuotePage.tsx lines 57 to 64) followed by the invalidation effect. -/
def handleCountryChange (allCities : List City) (info : QuoteInfo)
    (newCountryId : String) : QuoteInfo :=
  applyCityInvalidation allCities { info with countryId := newCountryId }

/-
Cascading delete protocol, src/unnamed/part_001 (the AdminPage revision with
the chunked country delete).  The Firestore state visible to the admin page is
modelled as the four collections; a writeBatch is modelled as the list of
staged document references, and batch.commit as the single atomic application
of all staged deletions (the Firestore writeBatch contract: a commit either
applies every staged write or fails leaving the store unchanged).
-/

/-- A document reference staged into a write batch. -/
inductive DocRef where
  | country (id : String)
  | city (id : String)
  | category (id : String)
  | product (id : String)
deriving DecidableEq, Repr

/-- A Category document. -/
structure Category where
  id : String
  CategoryName : String
deriving DecidableEq, Repr

/-- A Country document. -/
structure Country where
  id : String
  CountryName : String
deriving DecidableEq, Repr

/-- The Firestore collections the admin page operates on. -/
structure Store where
  countries : List Country
  cities : List City
  categories : List Category
  products : List Product
deriving DecidableEq, Repr

/-- Fuel-indexed helper for the chunking loop; the fuel bounds the number of
iterations and is at least the list length at every call from chunksOf. -/
def chunksOfAux (n : ℕ) : ℕ → List α → List (List α)
  | _, [] => []
  | 0, _ => []
  | fuel + 1, l => l.take n :: chunksOfAux n fuel (l.drop n)

/-- The chunking loop of ManageCountries.handleDelete, src/unnamed/part_001
lines 169 to 178: for i from 0 by CHUNK_SIZE, take the slice of length at
most CHUNK_SIZE. -/
def chunksOf (n : ℕ) (l : List α) : List (List α) :=
  if n = 0 then [] else chunksOfAux n l.length l

/-- ManageCountries.handleDelete, src/unnamed/part_001 lines 158 to 191:
the staged batch holds first every product referencing one of the country's
cities (found chunk by chunk, 30 city references per lookup), then every such
city, then the country itself. -/
def countryDeleteBatch (st : Store) (countryId : String) : List DocRef :=
  let citiesSnapshot := st.cities.filter (fun c => c.CountryRef = countryId)
  let cityIds := citiesSnapshot.map City.id
  let productDeletes := (chunksOf 30 cityIds).flatMap (fun chunk =>
    (st.products.filter (fun p => p.CityRef ∈ chunk)).map
      (fun p => DocRef.product p.id))
  productDeletes ++ citiesSnapshot.map (fun c => DocRef.city c.id) ++
    [DocRef.country countryId]

/-- ManageCities.handleDelete, src/unnamed/part_001 lines 281 to 299: stage
every product referencing the city, then the city. -/
def cityDeleteBatch (st : Store) (cityId : String) : List DocRef :=
  (st.products.filter (fun p => p.CityRef = cityId)).map
      (fun p => DocRef.product p.id) ++ [DocRef.city cityId]

/-- ManageCategories.handleDelete, src/unnamed/part_001 lines 367 to 385:
stage every product referencing the category, then the category. -/
def categoryDeleteBatch (st : Store) (categoryId : String) : List DocRef :=
  (st.products.filter (fun p => p.CategoryRef = categoryId)).map
      (fun p => DocRef.product p.id) ++ [DocRef.category categoryId]

/-- batch.commit as one atomic application: every staged deletion is applied
to the store in a single step. -/
def commitBatch (st : Store) (batch : List DocRef) : Store :=
  { countries := st.countries.filter (fun c => DocRef.country c.id ∉ batch),
    cities := st.cities.filter (fun c => DocRef.city c.id ∉ batch),
    categories := st.categories.filter (fun c => DocRef.category c.id ∉ batch),
    products := st.products.filter (fun p => DocRef.product p.id ∉ batch) }

/-- The root entity of a cascading delete. -/
inductive CascadeRoot where
  | country (id : String)
  | city (id : String)
  | category (id : String)

/-- Failure injection for the fallible steps of a cascading delete: queryError
k is the error thrown by the k-th getDocs call (0 is the cities query of a
country delete or the products query of a city or category delete; k + 1 is
the k-th chunked products query of a country delete), and commitError the
error thrown by batch.commit. -/
structure FailSpec where
  queryError : ℕ → Option String
  commitError : Option String

/-- ManageCountries.handleDelete with its try and catch, src/unnamed/part_001
lines 158 to 191: each await can throw; the catch alerts the underlying error
message and no store write has happened outside batch.commit. -/
def runCountryDelete (st : Store) (countryId : String) (f : FailSpec) :
    Store × Option String :=
  match f.queryError 0 with
  | some e => (st, some e)
  | none =>
    let cityIds :=
      (st.cities.filter (fun c => c.CountryRef = countryId)).map City.id
    match (List.range (chunksOf 30 cityIds).length).findSome?
        (fun k => f.queryError (k + 1)) with
    | some e => (st, some e)
    | none =>
      match f.commitError with
      | some e => (st, some e)
      | none => (commitBatch st (countryDeleteBatch st countryId), none)

/-- A cascading delete of a country, city, or category root, with its failure
handling as written in src/unnamed/part_001. -/
def runCascadeDelete (st : Store) (root : CascadeRoot) (f : FailSpec) :
    Store × Option String :=
  match root with
  | .country cid => runCountryDelete st cid f
  | .city cid =>
    match f.queryError 0 with
    | some e => (st, some e)
    | none =>
      match f.commitError with
      | some e => (st, some e)
      | none => (commitBatch st (cityDeleteBatch st cid), none)
  | .category gid =>
    match f.queryError 0 with
    | some e => (st, some e)
    | none =>
      match f.commitError with
      | some e => (st, some e)
      | none => (commitBatch st (categoryDeleteBatch st gid), none)

/-
CSV export, src/services/exportService.ts lines 30 to 77 (the revision that
rounds unit price and total to whole currency units, the policy the design
notes adopt).  A cell is either a string, rendered quoted with internal
quotes doubled, or a number.
-/

/-- One CSV cell: a JS string or a JS number. -/
inductive Cell where
  | str (s : String)
  | num (q : ℚ)
deriving DecidableEq, Repr

/-- The header row of exportCsvQuote. -/
def csvHeaders : List String :=
  ["일차", "카테고리", "상품명", "가격 유형", "성인", "아동", "유아",
   "단위 수량", "단가", "총 가격"]

/-- The row built per quote item in exportCsvQuote, src/services/
exportService.ts lines 45 to 60. -/
def quoteItemRow (info : QuoteInfo) (dayIndex : ℕ) (item : QuoteItem) :
    List Cell :=
  [ Cell.num (dayIndex + 1),
    Cell.str (match item.product.CategoryName with
              | some c => if c = "" then "해당 없음" else c
              | none => "해당 없음"),
    Cell.str item.product.ProductName,
    Cell.str (match item.product.PricingType with
              | .PerPerson => "인당"
              | .PerUnit => "단위당"),
    Cell.num info.pax.adults,
    Cell.num info.pax.children,
    Cell.num info.pax.infants,
    (match item.product.PricingType with
     | .PerUnit => Cell.num item.quantity
     | .PerPerson => Cell.str "해당 없음"),
    (match item.product.PricingType with
     | .PerUnit => Cell.num (jsRound item.appliedPrice)
     | .PerPerson => Cell.str "해당 없음"),
    Cell.num (jsRound item.total) ]

/-- All data rows of exportCsvQuote: one row per quote item, days in order. -/
def quoteRows (quote : Quote) : List (List Cell) :=
  quote.days.enum.flatMap (fun di =>
    di.2.items.map (fun item => quoteItemRow quote.info di.1 item))

/-- Rendering one cell into the joined CSV line: strings are wrapped in double
quotes with internal double quotes doubled; numbers print bare (every numeric
cell of this export is integral: day indices, pax counts, parsed integer
quantities, and rounded prices and totals). -/
def renderCell : Cell → String
  | .str s => "\"" ++ (s.replace "\"" "\"\"") ++ "\""
  | .num q => if q.den = 1 then toString q.num else toString q

/-- The full csvContent string of exportCsvQuote, src/services/
exportService.ts lines 62 to 67: the data-URI prefix with the UTF-8
byte-order mark, the header line, then one line per row. -/
def csvContent (quote : Quote) : String :=
  "data:text/csv;charset=utf-8,\uFEFF" ++
    String.intercalate "," csvHeaders ++ "\n" ++
    String.join ((quoteRows quote).map (fun row =>
      String.intercalate "," (row.map renderCell) ++ "\n"))

/-- A PerPerson product with an adult price of 100 and no other prices. -/
def adultOnlyTour : Product :=
  { id := "pa", ProductName := "입장권", CityRef := "c1", CategoryRef := "g1",
    PricingType := .PerPerson, Price_Adult := some 100, Price_Child := none,
    Price_Infant := none, Price_Unit := none, CategoryName := none }

/-- A PerPerson product priced 100 per adult and 50 per child. -/
def familyTour : Product :=
  { id := "pb", ProductName := "시티 투어", CityRef := "c1", CategoryRef := "g1",
    PricingType := .PerPerson, Price_Adult := some 100, Price_Child := some 50,
    Price_Infant := none, Price_Unit := none, CategoryName := some "투어" }

/-- A PerUnit product with a unit price of 10.5. -/
def vanRental : Product :=
  { id := "pu", ProductName := "차량 대여", CityRef := "c1", CategoryRef := "g1",
    PricingType := .PerUnit, Price_Adult := none, Price_Child := none,
    Price_Infant := none, Price_Unit := some (21 / 2), CategoryName := some "교통" }

/-- A quote item for the rental at quantity 2 and applied price 10.5. -/
def vanRentalItem : QuoteItem :=
  { id := 1, product := vanRental, quantity := 2, appliedPrice := 21 / 2,
    total := 0 }

/-- The recomputed quote holding exactly the rental item. -/
def quoteC9 : Quote :=
  let r := recalculateQuote [{ id := 0, items := [vanRentalItem], dayTotal := 0 }]
  { info := { customerName := "홍길동", countryId := "k", cityId := "c1",
              pax := ⟨2, 0, 0⟩ },
    days := r.1, grandTotal := r.2 }

/-- The totals-tree invariant of a quote state: each dayTotal is the sum of
its items' totals and the grand total is the sum of the day totals. -/
def totalsOk (s : QState) : Prop :=
  (∀ d ∈ s.days, d.dayTotal = (d.items.map QuoteItem.total).sum) ∧
  s.grandTotal = (s.days.map QuoteDay.dayTotal).sum

/-- Well-formedness of the day list: nonempty, with distinct ids all below
the fresh-id counter. -/
def daysWf (s : QState) : Prop :=
  s.days ≠ [] ∧ (s.days.map QuoteDay.id).Nodup ∧ ∀ d ∈ s.days, d.id < s.nextId

/-- Forget the stored total and dayTotal fields of a day list, keeping the
structure, products, ids, quantities and applied prices. -/
def eraseTotals (ds : List QuoteDay) : List QuoteDay :=
  ds.map (fun d =>
    { d with dayTotal := 0, items := d.items.map (fun it => { it with total := 0 }) })

/-- A concrete quote day holding the PerUnit rental item before recomputation. -/
def vanRentalDay : QuoteDay := { id := 0, items := [vanRentalItem], dayTotal := 0 }

/-- The rental item after recomputation: total 2 times 10.5. -/
def vanRentalItemRecalc : QuoteItem := { vanRentalItem with total := 21 }

/-- The rental day after recomputation. -/
def vanRentalDayRecalc : QuoteDay :=
  { id := 0, items := [vanRentalItemRecalc], dayTotal := 21 }

/-- A concrete PerPerson item as addProductToDay derives it for pax 2 adults,
1 child: quantity 3, applied price 83. -/
def familyTourItem : QuoteItem :=
  { id := 1, product := familyTour, quantity := 3, appliedPrice := 83, total := 0 }

/-- The family-tour day before recomputation. -/
def familyTourDay : QuoteDay := { id := 0, items := [familyTourItem], dayTotal := 0 }

/-- The family-tour item after recomputation: total 3 times 83. -/
def familyTourItemRecalc : QuoteItem := { familyTourItem with total := 249 }

/-- The family-tour day after recomputation. -/
def familyTourDayRecalc : QuoteDay :=
  { id := 0, items := [familyTourItemRecalc], dayTotal := 249 }

/-- Add a PerPerson product priced 100 per adult, then change pax from the
initial 1 adult to 2 adults. -/
def paxRecomputeOps : List QOp :=
  [QOp.addItem 0 adultOnlyTour, QOp.setPax ⟨2, 0, 0⟩]

/-- Set pax to 2 adults and 1 child, then add the family tour. -/
def familyAddOps : List QOp :=
  [QOp.setPax ⟨2, 1, 0⟩, QOp.addItem 0 familyTour]

/-- An item carrying an arbitrary stale total of 55. -/
def staleItemA : QuoteItem :=
  { id := 1, product := vanRental, quantity := 2, appliedPrice := 3, total := 55 }

/-- The same item carrying a different stale total of 99. -/
def staleItemB : QuoteItem :=
  { id := 1, product := vanRental, quantity := 2, appliedPrice := 3, total := 99 }

/-- A day list with arbitrary stale totals. -/
def staleDaysA : List QuoteDay := [{ id := 0, items := [staleItemA], dayTotal := 77 }]

/-- The same day list with different stale totals. -/
def staleDaysB : List QuoteDay := [{ id := 0, items := [staleItemB], dayTotal := 0 }]

/-- A city of country k1. -/
def seoulCity : City := { id := "c1", CityName := "서울", CountryRef := "k1" }

/-- A quote info currently pointing at that city. -/
def infoSeoul : QuoteInfo :=
  { customerName := "", countryId := "k1", cityId := "c1",
    pax := { adults := 1, children := 0, infants := 0 } }

/-- A PerUnit product located in city c3. -/
def bangkokTour : Product :=
  { id := "p9", ProductName := "방콕 투어", CityRef := "c3", CategoryRef := "g1",
    PricingType := .PerUnit, Price_Adult := none, Price_Child := none,
    Price_Infant := none, Price_Unit := some 30, CategoryName := none }

/-- A concrete admin store: two countries, three cities (two in k1), one
category and two products (one in a k1 city, one in the k2 city). -/
def storeW : Store :=
  { countries := [{ id := "k1", CountryName := "일본" },
                  { id := "k2", CountryName := "태국" }],
    cities := [{ id := "c1", CityName := "도쿄", CountryRef := "k1" },
               { id := "c2", CityName := "오사카", CountryRef := "k1" },
               { id := "c3", CityName := "방콕", CountryRef := "k2" }],
    categories := [{ id := "g1", CategoryName := "투어" }],
    products := [vanRental, bangkokTour] }

/-- A failure injection where only the batch commit throws. -/
def failCommitSpec : FailSpec :=
  { queryError := fun _ => none, commitError := some "commit failed" }

-- Theorems

theorem recalc_fst_map (ds : List QuoteDay) :
    (recalculateQuote ds).1 = ds.map (fun day =>
      let newItems := day.items.map (fun item =>
        { item with total := item.quantity * item.appliedPrice })
      { day with items := newItems,
                 dayTotal := (newItems.map QuoteItem.total).sum }) := rfl

theorem recalc_snd (ds : List QuoteDay) :
    (recalculateQuote ds).2 = ((recalculateQuote ds).1.map QuoteDay.dayTotal).sum := rfl

theorem recalc_day_total (ds : List QuoteDay) :
    ∀ d ∈ (recalculateQuote ds).1, d.dayTotal = (d.items.map QuoteItem.total).sum := by
  intro d hd
  rw [recalc_fst_map] at hd
  obtain ⟨d0, _, rfl⟩ := List.mem_map.mp hd
  rfl

theorem recalc_item_total (ds : List QuoteDay) :
    ∀ d ∈ (recalculateQuote ds).1, ∀ it ∈ d.items,
      it.total = it.quantity * it.appliedPrice := by
  intro d hd it hit
  rw [recalc_fst_map] at hd
  obtain ⟨d0, _, rfl⟩ := List.mem_map.mp hd
  obtain ⟨it0, _, rfl⟩ := List.mem_map.mp hit
  rfl

theorem recalc_ids (ds : List QuoteDay) :
    (recalculateQuote ds).1.map QuoteDay.id = ds.map QuoteDay.id := by
  rw [recalc_fst_map, List.map_map]
  rfl

theorem recalc_length (ds : List QuoteDay) :
    (recalculateQuote ds).1.length = ds.length := by
  rw [recalc_fst_map, List.length_map]

theorem totalsOk_of_recalc (s : QState) (ds : List QuoteDay)
    (hdays : s.days = (recalculateQuote ds).1)
    (hgrand : s.grandTotal = (recalculateQuote ds).2) : totalsOk s := by
  refine ⟨?_, ?_⟩
  · intro d hd
    exact recalc_day_total ds d (hdays ▸ hd)
  · rw [hgrand, hdays, recalc_snd]

theorem totalsOk_step (s : QState) (op : QOp) (h : totalsOk s) :
    totalsOk (step s op) := by
  cases op with
  | addDay =>
      obtain ⟨hday, hgrand⟩ := h
      refine ⟨?_, ?_⟩
      · intro d hd
        rcases List.mem_append.mp hd with hd | hd
        · exact hday d hd
        · simp only [List.mem_singleton] at hd
          subst hd
          rfl
      · simpa [step, addDay] using hgrand
  | removeDay dayId =>
      simp only [step, removeDay]
      split
      · exact h
      · exact totalsOk_of_recalc _ _ rfl rfl
  | addItem dayId p => exact totalsOk_of_recalc _ _ rfl rfl
  | updateItem dayId itemId f v => exact totalsOk_of_recalc _ _ rfl rfl
  | removeItem dayId itemId => exact totalsOk_of_recalc _ _ rfl rfl
  | setPax p => exact h

theorem totalsOk_foldl (ops : List QOp) :
    ∀ s : QState, totalsOk s → totalsOk (ops.foldl step s) := by
  induction ops with
  | nil => intro s h; exact h
  | cons op rest ih => intro s h; exact ih (step s op) (totalsOk_step s op h)

theorem totalsOk_initState : totalsOk initState := by
  constructor
  · intro d hd
    simp only [initState, List.mem_singleton] at hd
    subst hd
    rfl
  · simp [initState]

theorem bound_of_ids_subset {l l' : List QuoteDay}
    (hid : ∀ a ∈ l'.map QuoteDay.id, a ∈ l.map QuoteDay.id) {n : ℕ}
    (h : ∀ d ∈ l, d.id < n) : ∀ d ∈ l', d.id < n := by
  intro d hd
  have hmem : d.id ∈ l.map QuoteDay.id := hid _ (List.mem_map_of_mem _ hd)
  obtain ⟨d0, hd0, he⟩ := List.mem_map.mp hmem
  exact he ▸ h d0 hd0

theorem filter_ne_keep_length (l : List QuoteDay) (x : ℕ)
    (h : (l.map QuoteDay.id).Nodup) :
    l.length ≤ (l.filter (fun d => d.id ≠ x)).length + 1 := by
  induction l with
  | nil => simp
  | cons d t ih =>
      simp only [List.map_cons, List.nodup_cons] at h
      obtain ⟨hd, ht⟩ := h
      rw [List.filter_cons]
      split
      · simp only [List.length_cons]
        have := ih ht
        omega
      · rename_i hp
        have hdx : d.id = x := by simpa using hp
        have hkeep : t.filter (fun a => decide (a.id ≠ x)) = t := by
          rw [List.filter_eq_self]
          intro a ha
          simp only [decide_eq_true_eq]
          intro hax
          exact hd (by rw [hdx, ← hax]; exact List.mem_map_of_mem _ ha)
        rw [hkeep]
        simp

theorem map_ids_of_id_preserving (g : QuoteDay → QuoteDay)
    (hg : ∀ d, (g d).id = d.id) (l : List QuoteDay) :
    (l.map g).map QuoteDay.id = l.map QuoteDay.id := by
  rw [List.map_map]
  exact List.map_congr_left (fun a _ => hg a)

theorem daysWf_step (s : QState) (op : QOp) (h : daysWf s) : daysWf (step s op) := by
  obtain ⟨hne, hnodup, hbound⟩ := h
  cases op with
  | addDay =>
      refine ⟨by simp [step, addDay], ?_, ?_⟩
      · simp only [step, addDay, List.map_append, List.map_cons, List.map_nil]
        rw [List.nodup_append]
        refine ⟨hnodup, List.nodup_singleton _, ?_⟩
        intro a ha hb
        simp only [List.mem_singleton] at hb
        obtain ⟨d0, hd0, he⟩ := List.mem_map.mp ha
        exact absurd (hb ▸ he ▸ hbound d0 hd0) (lt_irrefl _)
      · intro d hd
        simp only [step, addDay] at hd ⊢
        rcases List.mem_append.mp hd with hd | hd
        · exact Nat.lt_succ_of_lt (hbound d hd)
        · simp only [List.mem_singleton] at hd
          subst hd
          exact Nat.lt_succ_self _
  | removeDay dayId =>
      simp only [step, removeDay]
      split
      · exact ⟨hne, hnodup, hbound⟩
      · rename_i hlen
        have hidseq := recalc_ids (s.days.filter (fun d => d.id ≠ dayId))
        refine ⟨?_, ?_, ?_⟩
        · have h2 : 2 ≤ s.days.length := by omega
          have h3 := filter_ne_keep_length s.days dayId hnodup
          have h4 : 1 ≤ (s.days.filter (fun d => d.id ≠ dayId)).length := by omega
          have h5 : 1 ≤ (recalculateQuote (s.days.filter (fun d => d.id ≠ dayId))).1.length := by
            rw [recalc_length]; exact h4
          intro hnil
          have h6 : (recalculateQuote (s.days.filter (fun d => d.id ≠ dayId))).1 = [] := hnil
          rw [h6] at h5
          simp at h5
        · rw [hidseq]
          exact ((List.filter_sublist s.days).map QuoteDay.id).nodup hnodup
        · refine bound_of_ids_subset ?_ hbound
          intro a ha
          rw [hidseq] at ha
          obtain ⟨d0, hd0, he⟩ := List.mem_map.mp ha
          exact he ▸ List.mem_map_of_mem _ (List.mem_of_mem_filter hd0)
  | addItem dayId p =>
      have hids : (step s (QOp.addItem dayId p)).days.map QuoteDay.id
          = s.days.map QuoteDay.id := by
        simp only [step, addProductToDay]
        rw [recalc_ids]
        apply map_ids_of_id_preserving
        intro d
        by_cases hd' : d.id = dayId <;> simp [hd']
      have hnext : (step s (QOp.addItem dayId p)).nextId = s.nextId + 1 := rfl
      refine ⟨?_, ?_, ?_⟩
      · intro hnil
        have := congrArg List.length hids
        rw [hnil] at this
        simp only [List.length_nil, List.length_map] at this
        exact hne (List.eq_nil_of_length_eq_zero this.symm)
      · rw [hids]; exact hnodup
      · have hsub : ∀ a ∈ (step s (QOp.addItem dayId p)).days.map QuoteDay.id,
            a ∈ s.days.map QuoteDay.id := by rw [hids]; exact fun a ha => ha
        have hb : ∀ d ∈ s.days, d.id < s.nextId + 1 :=
          fun d hd => Nat.lt_succ_of_lt (hbound d hd)
        exact @bound_of_ids_subset s.days _ hsub _ hb
  | updateItem dayId itemId f v =>
      have hids : (step s (QOp.updateItem dayId itemId f v)).days.map QuoteDay.id
          = s.days.map QuoteDay.id := by
        simp only [step, updateQuoteItem]
        rw [recalc_ids]
        refine map_ids_of_id_preserving _ ?_ _
        intro d
        split <;> rfl
      refine ⟨?_, by rw [hids]; exact hnodup,
        bound_of_ids_subset (by rw [hids]; exact fun a ha => ha) hbound⟩
      intro hnil
      have := congrArg List.length hids
      rw [hnil] at this
      simp only [List.length_nil, List.length_map] at this
      exact hne (List.eq_nil_of_length_eq_zero this.symm)
  | removeItem dayId itemId =>
      have hids : (step s (QOp.removeItem dayId itemId)).days.map QuoteDay.id
          = s.days.map QuoteDay.id := by
        simp only [step, removeQuoteItem]
        rw [recalc_ids]
        refine map_ids_of_id_preserving _ ?_ _
        intro d
        split <;> rfl
      refine ⟨?_, by rw [hids]; exact hnodup,
        bound_of_ids_subset (by rw [hids]; exact fun a ha => ha) hbound⟩
      intro hnil
      have := congrArg List.length hids
      rw [hnil] at this
      simp only [List.length_nil, List.length_map] at this
      exact hne (List.eq_nil_of_length_eq_zero this.symm)
  | setPax p => exact ⟨hne, hnodup, hbound⟩

theorem daysWf_foldl (ops : List QOp) :
    ∀ s : QState, daysWf s → daysWf (ops.foldl step s) := by
  induction ops with
  | nil => intro s h; exact h
  | cons op rest ih => intro s h; exact ih (step s op) (daysWf_step s op h)

theorem daysWf_initState : daysWf initState := by
  refine ⟨by simp [initState], by simp [initState], ?_⟩
  intro d hd
  simp only [initState, List.mem_singleton] at hd
  subst hd
  simp [initState]

/-- C6: removing a day is rejected when exactly one day remains, and every
state reachable by quote assembly operations keeps a nonempty day list. -/
theorem quote_days_nonempty :
    (∀ (s : QState) (dayId : ℕ), s.days.length = 1 → removeDay s dayId = s) ∧
    (∀ ops : List QOp, (run ops).days ≠ []) := by
  constructor
  · intro s dayId hlen
    simp [removeDay, hlen]
  · intro ops
    exact (daysWf_foldl ops initState daysWf_initState).1

/-- Witness for C6 at a concrete state and operation sequence. -/
theorem quote_days_nonempty_witness :
    removeDay initState 0 = initState ∧ (run [QOp.removeDay 0]).days ≠ [] :=
  ⟨quote_days_nonempty.1 initState 0 (by rfl),
   quote_days_nonempty.2 [QOp.removeDay 0]⟩

/-- C1: after any sequence of quote assembly operations (add or remove a day,
add or remove an item, edit an item's quantity or applied price, edit pax),
the grand total equals the sum of the day totals and each day total equals
the sum of that day's item totals. -/
theorem quote_totals_invariant (ops : List QOp) : totalsOk (run ops) :=
  totalsOk_foldl ops initState totalsOk_initState

/-- C7: after recomputation, a PerUnit item's total is exactly quantity times
appliedPrice, and a pax change alone (handleInfoChange on pax) leaves the days
and the grand total unchanged. -/
theorem per_unit_total_rule :
    (∀ ds : List QuoteDay, ∀ d ∈ (recalculateQuote ds).1, ∀ it ∈ d.items,
        it.product.PricingType = PricingType.PerUnit →
        it.total = it.quantity * it.appliedPrice) ∧
    (∀ (s : QState) (p : Pax),
        (setPax s p).days = s.days ∧ (setPax s p).grandTotal = s.grandTotal) := by
  constructor
  · intro ds d hd it hit _
    exact recalc_item_total ds d hd it hit
  · intro s p
    exact ⟨rfl, rfl⟩

theorem recalc_vanRentalDay :
    (recalculateQuote [vanRentalDay]).1 = [vanRentalDayRecalc] := by
  norm_num [recalculateQuote, vanRentalDay, vanRentalItem, vanRentalDayRecalc,
    vanRentalItemRecalc]

/-- Witness for C7 on the concrete PerUnit rental item. -/
theorem per_unit_total_rule_witness :
    vanRentalItemRecalc.total = vanRentalItemRecalc.quantity * vanRentalItemRecalc.appliedPrice ∧
    (setPax initState ⟨2, 0, 0⟩).days = initState.days :=
  ⟨per_unit_total_rule.1 [vanRentalDay] vanRentalDayRecalc
      (by rw [recalc_vanRentalDay]; exact List.mem_singleton_self _)
      vanRentalItemRecalc (by simp [vanRentalDayRecalc]) rfl,
   (per_unit_total_rule.2 initState ⟨2, 0, 0⟩).1⟩

/-- C2 counterexample: add the adult-only PerPerson product (price 100 per
adult) with 1 adult, then change pax to 2 adults. The stored total stays 100,
but the claimed per-head formula over current pax gives 200; pax changes do
not recompute PerPerson totals. -/
theorem per_person_pax_counterexample :
    (run paxRecomputeOps).days.map (fun d => d.items.map QuoteItem.total) ≠
      [[((run paxRecomputeOps).info.pax.adults : ℚ) * adultOnlyTour.Price_Adult.getD 0 +
        ((run paxRecomputeOps).info.pax.children : ℚ) * adultOnlyTour.Price_Child.getD 0 +
        ((run paxRecomputeOps).info.pax.infants : ℚ) * adultOnlyTour.Price_Infant.getD 0]] ∧
    adultOnlyTour.PricingType = PricingType.PerPerson := by
  constructor
  · norm_num [paxRecomputeOps, run, step, initState, addProductToDay,
      initialValues, setPax, recalculateQuote, jsRound, adultOnlyTour]
  · rfl

/-- C2 amended: a PerPerson item's total after recomputation is quantity times
appliedPrice, computed from the item's own stored fields; a pax change alone
triggers no recomputation and leaves days and grand total unchanged. -/
theorem per_person_total_amended :
    (∀ ds : List QuoteDay, ∀ d ∈ (recalculateQuote ds).1, ∀ it ∈ d.items,
        it.product.PricingType = PricingType.PerPerson →
        it.total = it.quantity * it.appliedPrice) ∧
    (∀ (s : QState) (p : Pax),
        (setPax s p).days = s.days ∧ (setPax s p).grandTotal = s.grandTotal) := by
  constructor
  · intro ds d hd it hit _
    exact recalc_item_total ds d hd it hit
  · intro s p
    exact ⟨rfl, rfl⟩

theorem recalc_familyTourDay :
    (recalculateQuote [familyTourDay]).1 = [familyTourDayRecalc] := by
  norm_num [recalculateQuote, familyTourDay, familyTourItem, familyTourDayRecalc,
    familyTourItemRecalc]

/-- Witness for the amended C2 on the concrete PerPerson family-tour item. -/
theorem per_person_total_amended_witness :
    familyTourItemRecalc.total = familyTourItemRecalc.quantity * familyTourItemRecalc.appliedPrice ∧
    (setPax initState ⟨3, 1, 0⟩).grandTotal = initState.grandTotal :=
  ⟨per_person_total_amended.1 [familyTourDay] familyTourDayRecalc
      (by rw [recalc_familyTourDay]; exact List.mem_singleton_self _)
      familyTourItemRecalc (by simp [familyTourDayRecalc]) rfl,
   (per_person_total_amended.2 initState ⟨3, 1, 0⟩).2⟩

/-- C3 counterexample: with pax 2 adults, 1 child and prices 100 and 50, the
added item gets quantity 3 and applied price 83, but its total is 249,
not the claimed 250. -/
theorem add_per_person_item_counterexample :
    (run familyAddOps).days.map
        (fun d => d.items.map (fun it => (it.quantity, it.appliedPrice, it.total)))
      = [[(3, 83, 249)]] ∧ (249 : ℚ) ≠ 250 := by
  constructor
  · norm_num [familyAddOps, run, step, initState, addProductToDay,
      initialValues, setPax, recalculateQuote, jsRound, familyTour]
  · norm_num

/-- C3 amended: the derived initial quantity is the party size (minimum 1)
and the derived initial applied price is the rounded weighted-average
per-head price (0 at zero pax); in the concrete example the item gets
quantity 3, applied price 83 and total 249 = 3 times 83, within one currency
unit of the per-head sum 250. -/
theorem add_per_person_item_amended :
    ((run familyAddOps).days.map
        (fun d => d.items.map (fun it => (it.quantity, it.appliedPrice, it.total)))
      = [[(3, 83, 249)]]) ∧
    (run familyAddOps).grandTotal = 249 ∧
    |(249 : ℚ) - 250| ≤ 1 ∧
    (∀ (pax : Pax) (p : Product), p.PricingType = PricingType.PerPerson →
      (0 < pax.adults + pax.children + pax.infants →
        initialValues pax p =
          (((pax.adults + pax.children + pax.infants : ℕ) : ℚ),
           (jsRound (((pax.adults : ℚ) * p.Price_Adult.getD 0 +
              (pax.children : ℚ) * p.Price_Child.getD 0 +
              (pax.infants : ℚ) * p.Price_Infant.getD 0) /
              ((pax.adults + pax.children + pax.infants : ℕ) : ℚ)) : ℚ))) ∧
      (pax.adults + pax.children + pax.infants = 0 →
        initialValues pax p = (1, 0))) := by
  refine ⟨?_, ?_, by norm_num, ?_⟩
  · norm_num [familyAddOps, run, step, initState, addProductToDay,
      initialValues, setPax, recalculateQuote, jsRound, familyTour]
  · norm_num [familyAddOps, run, step, initState, addProductToDay,
      initialValues, setPax, recalculateQuote, jsRound, familyTour]
  · intro pax p hp
    constructor
    · intro hpos
      simp [initialValues, hp, hpos]
    · intro h0
      simp [initialValues, hp, h0]

/-- Witness for the amended C3: the derivation applied at the concrete pax
and product of the example. -/
theorem add_per_person_item_amended_witness :
    familyTour.PricingType = PricingType.PerPerson ∧
    0 < (2 + 1 + 0 : ℕ) ∧
    initialValues ⟨2, 1, 0⟩ familyTour =
      (((2 + 1 + 0 : ℕ) : ℚ),
       (jsRound (((2 : ℚ) * familyTour.Price_Adult.getD 0 +
          (1 : ℚ) * familyTour.Price_Child.getD 0 +
          (0 : ℚ) * familyTour.Price_Infant.getD 0) /
          ((2 + 1 + 0 : ℕ) : ℚ)) : ℚ)) :=
  ⟨rfl, by decide,
   (add_per_person_item_amended.2.2.2 ⟨2, 1, 0⟩ familyTour rfl).1 (by decide)⟩

theorem recalc_of_eraseTotals (ds : List QuoteDay) :
    recalculateQuote (eraseTotals ds) = recalculateQuote ds := by
  have h1 : (recalculateQuote (eraseTotals ds)).1 = (recalculateQuote ds).1 := by
    rw [recalc_fst_map, recalc_fst_map, eraseTotals, List.map_map]
    apply List.map_congr_left
    intro d _
    simp only [Function.comp, List.map_map]
    rfl
  have h2 : (recalculateQuote (eraseTotals ds)).2 = (recalculateQuote ds).2 := by
    rw [recalc_snd, recalc_snd, h1]
  exact Prod.ext h1 h2

theorem recalc_idempotent (ds : List QuoteDay) :
    recalculateQuote (recalculateQuote ds).1 = recalculateQuote ds := by
  have h1 : (recalculateQuote (recalculateQuote ds).1).1 = (recalculateQuote ds).1 := by
    rw [recalc_fst_map, recalc_fst_map, List.map_map]
    apply List.map_congr_left
    intro d _
    simp only [Function.comp, List.map_map]
    rfl
  have h2 : (recalculateQuote (recalculateQuote ds).1).2 = (recalculateQuote ds).2 := by
    rw [recalc_snd, recalc_snd, h1]
  exact Prod.ext h1 h2

/-- C10: recalculateQuote ignores the incoming total and dayTotal fields
(two day lists that agree after erasing totals recalculate identically) and
is idempotent: recalculating its own output reproduces the same days and the
same grand total. -/
theorem recalculateQuote_normalizing :
    (∀ ds₁ ds₂ : List QuoteDay, eraseTotals ds₁ = eraseTotals ds₂ →
        recalculateQuote ds₁ = recalculateQuote ds₂) ∧
    (∀ ds : List QuoteDay,
        recalculateQuote (recalculateQuote ds).1 = recalculateQuote ds) := by
  constructor
  · intro ds₁ ds₂ h
    rw [← recalc_of_eraseTotals ds₁, ← recalc_of_eraseTotals ds₂, h]
  · exact recalc_idempotent

/-- Witness for C10 on two concrete day lists with different stale totals. -/
theorem recalculateQuote_normalizing_witness :
    eraseTotals staleDaysA = eraseTotals staleDaysB ∧
    recalculateQuote staleDaysA = recalculateQuote staleDaysB :=
  ⟨rfl, recalculateQuote_normalizing.1 staleDaysA staleDaysB rfl⟩

/-- C8: after changing the country to a nonempty id, a cityId none of whose
carriers belongs to the new country is cleared to the empty string, and a
cityId carried by a city of the new country is kept unchanged. -/
theorem country_change_city_invalidation (allCities : List City) (info : QuoteInfo)
    (newCountryId : String) (hne : newCountryId ≠ "") :
    ((∀ c ∈ allCities, c.id = info.cityId → c.CountryRef ≠ newCountryId) →
      (handleCountryChange allCities info newCountryId).cityId = "") ∧
    ((∃ c ∈ allCities, c.id = info.cityId ∧ c.CountryRef = newCountryId) →
      handleCountryChange allCities info newCountryId
        = { info with countryId := newCountryId }) := by
  constructor
  · intro hall
    have hfind : (availableCities allCities newCountryId).find?
        (fun c => c.id = info.cityId) = none := by
      rw [List.find?_eq_none]
      intro x hx
      rw [availableCities, if_neg hne] at hx
      obtain ⟨hxmem, hxc⟩ := List.mem_filter.mp hx
      simp only [decide_eq_true_eq] at hxc
      simp only [decide_eq_true_eq, Bool.not_eq_true]
      intro hxe
      exact hall x hxmem hxe hxc
    show (applyCityInvalidation allCities { info with countryId := newCountryId }).cityId = ""
    rw [applyCityInvalidation, if_pos]
    exact ⟨hne, hfind⟩
  · rintro ⟨c, hc, hcid, hcc⟩
    have hfind : ((availableCities allCities newCountryId).find?
        (fun x => x.id = info.cityId)).isSome := by
      rw [List.find?_isSome]
      refine ⟨c, ?_, by simp [hcid]⟩
      rw [availableCities, if_neg hne]
      exact List.mem_filter.mpr ⟨hc, by simp [hcc]⟩
    show applyCityInvalidation allCities { info with countryId := newCountryId } = _
    rw [applyCityInvalidation, if_neg]
    rintro ⟨_, h2⟩
    rw [h2] at hfind
    simp at hfind

/-- Witness for C8: changing the country away from the city's country clears
the cityId, changing it to the city's own country keeps it. -/
theorem country_change_city_invalidation_witness :
    ("k2" : String) ≠ "" ∧
    (handleCountryChange [seoulCity] infoSeoul "k2").cityId = "" ∧
    handleCountryChange [seoulCity] infoSeoul "k1"
      = { infoSeoul with countryId := "k1" } :=
  ⟨by decide,
   (country_change_city_invalidation [seoulCity] infoSeoul "k2" (by decide)).1
     (by decide),
   (country_change_city_invalidation [seoulCity] infoSeoul "k1" (by decide)).2
     ⟨seoulCity, by simp [seoulCity, infoSeoul]⟩⟩

theorem chunksOfAux_flatten (n : ℕ) (hn : 0 < n) :
    ∀ (fuel : ℕ) (l : List α), l.length ≤ fuel →
      (chunksOfAux n fuel l).flatten = l := by
  intro fuel
  induction fuel with
  | zero =>
      intro l hl
      have h0 : l = [] := List.eq_nil_of_length_eq_zero (Nat.le_zero.mp hl)
      subst h0
      rfl
  | succ fuel ih =>
      intro l hl
      cases l with
      | nil => rfl
      | cons a t =>
          have hlen : ((a :: t).drop n).length ≤ fuel := by
            rw [List.length_drop]
            simp only [List.length_cons] at hl ⊢
            omega
          show ((a :: t).take n :: chunksOfAux n fuel ((a :: t).drop n)).flatten = a :: t
          rw [List.flatten_cons, ih _ hlen, List.take_append_drop]

theorem chunksOf_flatten (n : ℕ) (hn : 0 < n) (l : List α) :
    (chunksOf n l).flatten = l := by
  rw [chunksOf, if_neg (Nat.pos_iff_ne_zero.mp hn)]
  exact chunksOfAux_flatten n hn l.length l (le_refl _)

theorem chunksOfAux_length_le (n : ℕ) :
    ∀ (fuel : ℕ) (l : List α), ∀ c ∈ chunksOfAux n fuel l, c.length ≤ n := by
  intro fuel
  induction fuel with
  | zero =>
      intro l c hc
      cases l <;> simp [chunksOfAux] at hc
  | succ fuel ih =>
      intro l c hc
      cases l with
      | nil => simp [chunksOfAux] at hc
      | cons a t =>
          have he : chunksOfAux n (fuel + 1) (a :: t)
              = (a :: t).take n :: chunksOfAux n fuel ((a :: t).drop n) := rfl
          rw [he] at hc
          rcases List.mem_cons.mp hc with h | h
          · subst h
            rw [List.length_take]
            exact Nat.min_le_left _ _
          · exact ih _ c h

theorem chunksOf_length_le (n : ℕ) (l : List α) :
    ∀ c ∈ chunksOf n l, c.length ≤ n := by
  rw [chunksOf]
  split
  · simp
  · exact chunksOfAux_length_le n l.length l

theorem mem_chunksOf_iff (n : ℕ) (hn : 0 < n) (l : List α) (a : α) :
    (∃ c ∈ chunksOf n l, a ∈ c) ↔ a ∈ l := by
  conv_rhs => rw [← chunksOf_flatten n hn l]
  rw [List.mem_flatten]

theorem country_mem_countryDeleteBatch (st : Store) (cid x : String) :
    DocRef.country x ∈ countryDeleteBatch st cid ↔ x = cid := by
  simp [countryDeleteBatch]

theorem category_not_mem_countryDeleteBatch (st : Store) (cid x : String) :
    DocRef.category x ∉ countryDeleteBatch st cid := by
  simp [countryDeleteBatch]

theorem city_mem_countryDeleteBatch (st : Store) (cid x : String) :
    DocRef.city x ∈ countryDeleteBatch st cid ↔
      ∃ c ∈ st.cities, c.CountryRef = cid ∧ c.id = x := by
  simp only [countryDeleteBatch, List.mem_append, List.mem_flatMap, List.mem_map,
    List.mem_filter, List.mem_singleton, decide_eq_true_eq]
  constructor
  · rintro ((⟨chunk, _, p, _, hne⟩ | ⟨c, hcm, hce⟩) | hne)
    · exact absurd hne (by simp)
    · exact ⟨c, hcm.1, hcm.2, by injection hce⟩
    · exact absurd hne (by simp)
  · rintro ⟨c, hcm, hcc, hce⟩
    exact Or.inl (Or.inr ⟨c, ⟨hcm, hcc⟩, by rw [hce]⟩)

theorem product_mem_countryDeleteBatch (st : Store) (cid x : String) :
    DocRef.product x ∈ countryDeleteBatch st cid ↔
      ∃ p ∈ st.products,
        (∃ c ∈ st.cities, c.CountryRef = cid ∧ c.id = p.CityRef) ∧ p.id = x := by
  simp only [countryDeleteBatch, List.mem_append, List.mem_flatMap, List.mem_map,
    List.mem_filter, List.mem_singleton, decide_eq_true_eq]
  constructor
  · rintro ((⟨chunk, hchunk, p, ⟨hp, hpc⟩, hpe⟩ | ⟨c, _, hne⟩) | hne)
    · have hcity : p.CityRef ∈ (st.cities.filter
          (fun c => c.CountryRef = cid)).map City.id :=
        (mem_chunksOf_iff 30 (by norm_num) _ _).mp ⟨chunk, hchunk, hpc⟩
      obtain ⟨c, hcmem, hce⟩ := List.mem_map.mp hcity
      obtain ⟨hcm, hcc⟩ := List.mem_filter.mp hcmem
      refine ⟨p, hp, ⟨c, hcm, by simpa using hcc, hce⟩, by injection hpe⟩
    · exact absurd hne (by simp)
    · exact absurd hne (by simp)
  · rintro ⟨p, hp, ⟨c, hcm, hcc, hce⟩, hpe⟩
    have hcity : p.CityRef ∈ (st.cities.filter
        (fun c => c.CountryRef = cid)).map City.id :=
      List.mem_map.mpr ⟨c, List.mem_filter.mpr ⟨hcm, by simp [hcc]⟩, hce⟩
    obtain ⟨chunk, hchunk, hpc⟩ := (mem_chunksOf_iff 30 (by norm_num) _ _).mpr hcity
    exact Or.inl (Or.inl ⟨chunk, hchunk, p, ⟨hp, hpc⟩, by rw [hpe]⟩)

/-- C4: the dependent-product lookups of a country delete are chunked into
batches of at most 30 city references covering exactly the country's cities,
and the one atomic commit of the staged batch removes exactly the dependent
products, the country's cities, and the country, leaving categories intact. -/
theorem country_cascade_delete (st : Store) (cid : String)
    (hcity : (st.cities.map City.id).Nodup)
    (hprod : (st.products.map Product.id).Nodup) :
    (∀ chunk ∈ chunksOf 30 ((st.cities.filter
        (fun c => c.CountryRef = cid)).map City.id), chunk.length ≤ 30) ∧
    ((chunksOf 30 ((st.cities.filter (fun c => c.CountryRef = cid)).map City.id)).flatten
        = (st.cities.filter (fun c => c.CountryRef = cid)).map City.id) ∧
    commitBatch st (countryDeleteBatch st cid) =
      { countries := st.countries.filter (fun c => c.id ≠ cid),
        cities := st.cities.filter (fun c => ¬ c.CountryRef = cid),
        categories := st.categories,
        products := st.products.filter
          (fun p => ¬ ∃ c ∈ st.cities, c.CountryRef = cid ∧ c.id = p.CityRef) } := by
  refine ⟨chunksOf_length_le 30 _, chunksOf_flatten 30 (by norm_num) _, ?_⟩
  rw [commitBatch]
  simp only [Store.mk.injEq]
  refine ⟨?_, ?_, ?_, ?_⟩
  · apply List.filter_congr
    intro c _
    rw [decide_eq_decide]
    rw [country_mem_countryDeleteBatch]
  · apply List.filter_congr
    intro c hc
    rw [decide_eq_decide]
    rw [city_mem_countryDeleteBatch]
    constructor
    · intro hno hcc
      exact hno ⟨c, hc, hcc, rfl⟩
    · rintro hnc ⟨c', hc', hcc', hce'⟩
      have : c' = c := List.inj_on_of_nodup_map hcity hc' hc hce'
      exact hnc (this ▸ hcc')
  · rw [List.filter_eq_self.mpr]
    intro c _
    simpa using category_not_mem_countryDeleteBatch st cid c.id
  · apply List.filter_congr
    intro p hp
    rw [decide_eq_decide]
    rw [product_mem_countryDeleteBatch]
    constructor
    · intro hno hcc
      exact hno ⟨p, hp, hcc, rfl⟩
    · rintro hnc ⟨p', hp', hcc', hpe'⟩
      have : p' = p := List.inj_on_of_nodup_map hprod hp' hp hpe'
      exact hnc (this ▸ hcc')

/-- Witness for C4 on the concrete store, deleting country k1. -/
theorem country_cascade_delete_witness :
    ((storeW.cities.map City.id).Nodup ∧ (storeW.products.map Product.id).Nodup) ∧
    commitBatch storeW (countryDeleteBatch storeW "k1") =
      { countries := storeW.countries.filter (fun c => c.id ≠ "k1"),
        cities := storeW.cities.filter (fun c => ¬ c.CountryRef = "k1"),
        categories := storeW.categories,
        products := storeW.products.filter
          (fun p => ¬ ∃ c ∈ storeW.cities, c.CountryRef = "k1" ∧ c.id = p.CityRef) } :=
  ⟨⟨by decide, by decide⟩,
   (country_cascade_delete storeW "k1" (by decide) (by decide)).2.2⟩

/-- C5: whenever a cascading delete of a country, city, or category root
reports an error (the alert shown to the user, carrying the underlying
message), the store is unchanged: no partial deletion happened. -/
theorem cascade_delete_abort (st : Store) (root : CascadeRoot) (f : FailSpec)
    (e : String) (h : (runCascadeDelete st root f).2 = some e) :
    (runCascadeDelete st root f).1 = st := by
  cases root with
  | country cid =>
      simp only [runCascadeDelete, runCountryDelete] at h ⊢
      cases hq : f.queryError 0 with
      | some e1 => simp [hq]
      | none =>
          simp only [hq] at h ⊢
          cases hf : (List.range (chunksOf 30 ((st.cities.filter
              (fun c => c.CountryRef = cid)).map City.id)).length).findSome?
              (fun k => f.queryError (k + 1)) with
          | some e2 => simp [hf]
          | none =>
              simp only [hf] at h ⊢
              cases hcm : f.commitError with
              | some e3 => simp [hcm]
              | none => simp [hcm] at h
  | city cid =>
      simp only [runCascadeDelete] at h ⊢
      cases hq : f.queryError 0 with
      | some e1 => simp [hq]
      | none =>
          simp only [hq] at h ⊢
          cases hcm : f.commitError with
          | some e3 => simp [hcm]
          | none => simp [hcm] at h
  | category gid =>
      simp only [runCascadeDelete] at h ⊢
      cases hq : f.queryError 0 with
      | some e1 => simp [hq]
      | none =>
          simp only [hq] at h ⊢
          cases hcm : f.commitError with
          | some e3 => simp [hcm]
          | none => simp [hcm] at h

/-- Witness for C5: a failing commit on the concrete store aborts the country
cascade with the underlying message and leaves the store untouched. -/
theorem cascade_delete_abort_witness :
    (runCascadeDelete storeW (CascadeRoot.country "k1") failCommitSpec).2
      = some "commit failed" ∧
    (runCascadeDelete storeW (CascadeRoot.country "k1") failCommitSpec).1 = storeW :=
  ⟨rfl, cascade_delete_abort storeW (CascadeRoot.country "k1") failCommitSpec
    "commit failed" rfl⟩

theorem quoteRows_length (qt : Quote) :
    (quoteRows qt).length = (qt.days.map (fun d => d.items.length)).sum := by
  simp only [quoteRows, List.flatMap, List.length_flatten, List.map_map]
  have h1 : ∀ l : List QuoteDay,
      List.map ((fun r => List.length r) ∘
        (fun di : ℕ × QuoteDay => di.2.items.map (quoteItemRow qt.info di.1))) l.enum
      = List.map (fun d => d.items.length) l := by
    intro l
    have h2 : ((fun r => List.length r) ∘
          (fun di : ℕ × QuoteDay => di.2.items.map (quoteItemRow qt.info di.1)))
        = (fun d : QuoteDay => d.items.length) ∘ Prod.snd := by
      funext di
      simp [List.length_map]
    rw [h2, ← List.map_map]
    rw [show l.enum = l.enumFrom 0 from rfl, List.enumFrom_map_snd]
  rw [h1]

/-- C9 counterexample: for the quote with one PerUnit item of quantity 2 and
applied price 10.5, the export row holds unit price 11 (the rounded price),
not 10.5 as claimed; quantity 2 and total 21 do appear. -/
theorem csv_export_counterexample :
    quoteRows quoteC9 =
      [[Cell.num 1, Cell.str "교통", Cell.str "차량 대여", Cell.str "단위당",
        Cell.num 2, Cell.num 0, Cell.num 0, Cell.num 2, Cell.num 11,
        Cell.num 21]] ∧
    vanRentalItem.quantity = 2 ∧ vanRentalItem.appliedPrice = 21 / 2 ∧
    Cell.num 11 ≠ Cell.num (21 / 2) := by
  refine ⟨?_, rfl, rfl, ?_⟩
  · norm_num [quoteRows, quoteC9, quoteItemRow, recalculateQuote, vanRentalItem,
      vanRental, jsRound]
    decide
  · simp only [ne_eq, Cell.num.injEq]
    norm_num

/-- C9 amended: CSV export emits one row per QuoteItem with the ten listed
columns, string fields quoted with internal quotes doubled and the UTF-8
byte-order mark prepended to the payload; for the quote with one PerUnit item
of quantity 2 and applied price 10.5 the row carries unit quantity 2, unit
price 11 (the export rounds unit price and total to whole units) and
total 21. -/
theorem csv_export_amended :
    (∀ qt : Quote,
        (quoteRows qt).length = (qt.days.map (fun d => d.items.length)).sum) ∧
    quoteRows quoteC9 =
      [[Cell.num 1, Cell.str "교통", Cell.str "차량 대여", Cell.str "단위당",
        Cell.num 2, Cell.num 0, Cell.num 0, Cell.num 2, Cell.num 11,
        Cell.num 21]] ∧
    csvContent quoteC9 =
      "data:text/csv;charset=utf-8,\uFEFF일차,카테고리,상품명,가격 유형,성인,아동,유아,단위 수량,단가,총 가격\n1,\"교통\",\"차량 대여\",\"단위당\",2,0,0,2,11,21\n" ∧
    renderCell (Cell.str "차량 \"대여\"") = "\"차량 \"\"대여\"\"\"" := by
  refine ⟨quoteRows_length, ?_, ?_, ?_⟩
  · norm_num [quoteRows, quoteC9, quoteItemRow, recalculateQuote, vanRentalItem,
      vanRental, jsRound]
    decide
  · with_unfolding_all decide
  · with_unfolding_all decide

end TourQuote
